import Mathlib

/-!
Verification of the DreamCom core: the multi-provider LLM dispatcher
(`core/llm/provider_types.py`, `core/llm/multi_client.py`) and the meeting
orchestrator (`deamcompan/core/meetings/engine.py`,
`deamcompan/src/deamcompan/core/meetings/phases.py`).

The Python code is embedded shallowly:
* provider transport calls are abstracted as an oracle
  `Beh : String → Nat → Except String LLMResponse` giving, per provider id and
  per 0-based attempt index, either a response or the raised error message;
* the observable actions of `MultiClient.complete` (each call to
  `_try_provider`, each `asyncio.sleep`) are recorded as an event trace;
* `retry_delay` (a Python float used only for sleeping) is modelled as `Rat`;
* Python dicts are modelled as insertion-ordered association lists with
  overwriting update, matching dict semantics.
-/

/-- Embeds `ProviderConfig` from `core/llm/provider_types.py`.  The `type`,
`api_key`, `base_url`, `models` and `default_model` fields only configure the
transport client, which is abstracted by the behaviour oracle, so they are
carried as plain data. -/
structure ProviderConfig where
  id : String
  name : String
  api_key : String := ""
  base_url : Option String := none
  models : List String := []
  default_model : String := ""
  priority : Int := 1
  enabled : Bool := true
  deriving Repr, DecidableEq

/-- Embeds `MultiProviderSettings`.  `max_retries` is `Nat` (Python `int`;
`range` of a non-positive number is empty, matching `0`), `retry_delay` is
modelled as an exact rational. -/
structure MultiProviderSettings where
  auto_switch : Bool := true
  max_retries : Nat := 3
  retry_delay : Rat := 1
  fallback_to_mock : Bool := true
  deriving Repr, DecidableEq

/-- Embeds `ProvidersConfig` (the provider registry state). -/
structure ProvidersConfig where
  providers : List ProviderConfig
  settings : MultiProviderSettings := {}
  deriving Repr, DecidableEq

/-- Stable insertion step: place `x` before the first element of equal or
larger priority.  Since `sortedByPriority` inserts the head (the earliest
input element) into the sorted tail, `x` lands in front of equal-priority
elements that came later in the input, so the sort is a stable ascending
sort — the semantics of Python `sorted(key=lambda p: p.priority)`. -/
def insertByPriority (x : ProviderConfig) : List ProviderConfig → List ProviderConfig
  | [] => [x]
  | y :: ys =>
      if x.priority ≤ y.priority then x :: y :: ys else y :: insertByPriority x ys

/-- Stable ascending sort by `priority` (model of Python `sorted`). -/
def sortedByPriority : List ProviderConfig → List ProviderConfig
  | [] => []
  | x :: xs => insertByPriority x (sortedByPriority xs)

/-- Embeds `ProvidersConfig.get_enabled_providers`: Python
`sorted([p for p in self.providers if p.enabled], key=lambda p: p.priority)`. -/
def ProvidersConfig.get_enabled_providers (c : ProvidersConfig) : List ProviderConfig :=
  sortedByPriority (c.providers.filter (·.enabled))

/-- Embeds `ProvidersConfig.get_provider`: first provider with the given id,
else `none`. -/
def ProvidersConfig.get_provider (c : ProvidersConfig) (provider_id : String) :
    Option ProviderConfig :=
  c.providers.find? (fun p => p.id == provider_id)

/-- Embeds `LLMResponse` from `core/llm/base.py` (the `usage` dict plays no
role in the dispatcher and is omitted). -/
structure LLMResponse where
  content : String
  deriving Repr, DecidableEq

/-- Transport behaviour oracle: for a provider id and a 0-based attempt index,
the outcome of `_try_provider` — `Except.ok` a response, or `Except.error`
the `str(e)` of the raised exception. -/
abbrev Beh := String → Nat → Except String LLMResponse

/-- Observable events of `MultiClient.complete`: an attempt against a provider
(`n` is the 1-based attempt number, as in the log line
`attempt {attempt + 1}/{max_retries}`) and a backoff sleep of the given
duration in seconds. -/
inductive Ev where
  | attempt (providerId : String) (n : Nat)
  | wait (seconds : Rat)
  deriving Repr, DecidableEq

/-- Insertion-ordered string dict, as used for `errors: dict[str, str]`. -/
abbrev ErrDict := List (String × String)

/-- Python dict assignment `d[k] = v`: overwrite in place if the key exists,
else append. -/
def dictSet (d : ErrDict) (k v : String) : ErrDict :=
  if d.any (fun kv => kv.1 == k) then
    d.map (fun kv => if kv.1 == k then (k, v) else kv)
  else d ++ [(k, v)]

/-- Embeds the inner retry loop of `MultiClient.complete`
(`for attempt in range(settings.max_retries): ...`) for one provider.
`remaining` counts the attempts still allowed (initially `max_retries`),
`attempt` is the current 0-based attempt index.  Returns the successful
response (if any), the updated error dict, and the events of this loop:
an attempt event per call, and after a failed attempt that is not the last,
a wait of `retry_delay * 2 ^ attempt`. -/
def retryLoop (beh : Beh) (s : MultiProviderSettings) (p : ProviderConfig) :
    Nat → Nat → ErrDict → Option LLMResponse × ErrDict × List Ev
  | 0, _, errors => (none, errors, [])
  | r + 1, attempt, errors =>
    match beh p.id attempt with
    | .ok resp => (some resp, errors, [.attempt p.id (attempt + 1)])
    | .error msg =>
      let errors1 := dictSet errors p.name msg
      if r = 0 then
        (none, errors1, [.attempt p.id (attempt + 1)])
      else
        let rest := retryLoop beh s p r (attempt + 1) errors1
        (rest.1, rest.2.1,
          .attempt p.id (attempt + 1) :: .wait (s.retry_delay * 2 ^ attempt) :: rest.2.2)

/-- Embeds the outer provider loop of `MultiClient.complete`: run the retry
loop per provider; on success return immediately; after exhausting a provider
continue only if `auto_switch` is set, else break.  When all tried providers
are exhausted, `MultiClientError(errors)` is raised (`Except.error`). -/
def providersLoop (beh : Beh) (s : MultiProviderSettings) :
    List ProviderConfig → ErrDict → Except ErrDict LLMResponse × List Ev
  | [], errors => (.error errors, [])
  | p :: ps, errors =>
    let step := retryLoop beh s p s.max_retries 0 errors
    match step.1 with
    | some resp => (.ok resp, step.2.2)
    | none =>
      if s.auto_switch then
        let rest := providersLoop beh s ps step.2.1
        (rest.1, step.2.2 ++ rest.2)
      else (.error step.2.1, step.2.2)

/-- Candidate provider list of `MultiClient.complete` / `stream`.  Python
`if specific_provider:` is truthiness, so the empty string falls through to
the enabled list; `[p for p in [get_provider(x)] if p]` is `Option.toList`. -/
def candidates (cfg : ProvidersConfig) (specific : Option String) : List ProviderConfig :=
  match specific with
  | some pid =>
      if pid == "" then cfg.get_enabled_providers else (cfg.get_provider pid).toList
  | none => cfg.get_enabled_providers

/-- Result of one `MultiClient.complete` call: the returned response or the
raised `MultiClientError` payload, plus the event trace. -/
structure CompleteRun where
  outcome : Except ErrDict LLMResponse
  events : List Ev
  deriving Repr

/-- Embeds `MultiClient.complete`. -/
def complete (beh : Beh) (cfg : ProvidersConfig) (specific : Option String) : CompleteRun :=
  let s := cfg.settings
  let providers := candidates cfg specific
  if providers.isEmpty then
    { outcome := .error [("all", "No providers available")], events := [] }
  else
    let run := providersLoop beh s providers []
    { outcome := run.1, events := run.2 }

/-- Python `s.strip()[:100]`-style truncation used in `test_provider` error
messages (`str(e)[:100]`). -/
def pyTake100 (s : String) : String := s.take 100

/-- Python substring containment `needle in hay`, used for
`"Test successful" in response.content`. -/
def pyContainsStr (hay needle : String) : Bool :=
  2 ≤ (hay.splitOn needle).length

/-- Embeds `MultiClient.test_provider`: reject unknown and disabled providers
immediately; otherwise make a single direct attempt (abstracted as the
provider's attempt 0) and classify the outcome. -/
def test_provider (beh : Beh) (cfg : ProvidersConfig) (provider_id : String) :
    Bool × String :=
  match cfg.get_provider provider_id with
  | none => (false, "Provider " ++ provider_id ++ " not found")
  | some p =>
    if !p.enabled then
      (false, "Provider " ++ provider_id ++ " is disabled")
    else
      match beh p.id 0 with
      | .ok resp =>
          if pyContainsStr resp.content "Test successful" then
            (true, "Provider " ++ p.name ++ " is working")
          else
            (true, "Provider " ++ p.name ++ " responded (unexpected content)")
      | .error e => (false, "Provider " ++ p.name ++ " failed: " ++ pyTake100 e)

lemma mem_insertByPriority {a x : ProviderConfig} {l : List ProviderConfig} :
    a ∈ insertByPriority x l ↔ a = x ∨ a ∈ l := by
  induction l with
  | nil => simp [insertByPriority]
  | cons y ys ih =>
      by_cases hxy : x.priority ≤ y.priority
      · simp [insertByPriority, hxy]
      · simp only [insertByPriority, if_neg hxy, List.mem_cons, ih]
        tauto

lemma mem_sortedByPriority {a : ProviderConfig} {l : List ProviderConfig} :
    a ∈ sortedByPriority l ↔ a ∈ l := by
  induction l with
  | nil => simp [sortedByPriority]
  | cons x xs ih => simp [sortedByPriority, mem_insertByPriority, ih]

lemma pairwise_insertByPriority {x : ProviderConfig} {l : List ProviderConfig}
    (h : l.Pairwise (fun a b => a.priority ≤ b.priority)) :
    (insertByPriority x l).Pairwise (fun a b => a.priority ≤ b.priority) := by
  induction l with
  | nil => simp [insertByPriority]
  | cons y ys ih =>
      rcases List.pairwise_cons.mp h with ⟨hy, hys⟩
      by_cases hxy : x.priority ≤ y.priority
      · rw [insertByPriority, if_pos hxy]
        refine List.pairwise_cons.mpr ⟨?_, h⟩
        intro b hb
        rcases List.mem_cons.mp hb with rfl | hb
        · exact hxy
        · exact le_trans hxy (hy b hb)
      · rw [insertByPriority, if_neg hxy]
        refine List.pairwise_cons.mpr ⟨?_, ih hys⟩
        intro b hb
        rcases mem_insertByPriority.mp hb with rfl | hb
        · exact le_of_lt (lt_of_not_le hxy)
        · exact hy b hb

lemma pairwise_sortedByPriority (l : List ProviderConfig) :
    (sortedByPriority l).Pairwise (fun a b => a.priority ≤ b.priority) := by
  induction l with
  | nil => simp [sortedByPriority]
  | cons x xs ih => exact pairwise_insertByPriority ih

lemma filter_insertByPriority (x : ProviderConfig) (l : List ProviderConfig) (p : Int) :
    (insertByPriority x l).filter (fun q => q.priority == p)
      = if x.priority == p then x :: l.filter (fun q => q.priority == p)
        else l.filter (fun q => q.priority == p) := by
  induction l with
  | nil => by_cases hx : x.priority = p <;>
      simp [insertByPriority, List.filter_cons, hx]
  | cons y ys ih =>
      by_cases hxy : x.priority ≤ y.priority
      · rw [insertByPriority, if_pos hxy]
        by_cases hx : x.priority = p <;> simp [List.filter_cons, hx]
      · rw [insertByPriority, if_neg hxy]
        by_cases hx : x.priority = p
        · by_cases hy : y.priority = p
          · exact absurd (le_of_eq (hx.trans hy.symm)) hxy
          · simp [List.filter_cons, hx, hy, ih]
        · by_cases hy : y.priority = p <;> simp [List.filter_cons, hx, hy, ih]

lemma filter_sortedByPriority (l : List ProviderConfig) (p : Int) :
    (sortedByPriority l).filter (fun q => q.priority == p)
      = l.filter (fun q => q.priority == p) := by
  induction l with
  | nil => rfl
  | cons x xs ih =>
      simp only [sortedByPriority, filter_insertByPriority, List.filter_cons, ih]

lemma retryLoop_attempt_mem {beh : Beh} {s : MultiProviderSettings} {p : ProviderConfig}
    {r a : Nat} {errors : ErrDict} {pid : String} {n : Nat}
    (h : Ev.attempt pid n ∈ (retryLoop beh s p r a errors).2.2) : pid = p.id := by
  induction r generalizing a errors with
  | zero => simp [retryLoop] at h
  | succ r ih =>
      simp only [retryLoop] at h
      rcases hb : beh p.id a with msg | resp <;> rw [hb] at h <;> dsimp only at h
      · by_cases hr : r = 0
        · rw [if_pos hr] at h
          simp at h
          exact h.1
        · rw [if_neg hr] at h
          simp only [List.mem_cons] at h
          rcases h with he | he | h
          · simp at he
            exact he.1
          · simp at he
          · exact ih h
      · simp at h
        exact h.1

lemma providersLoop_attempt_mem {beh : Beh} {s : MultiProviderSettings}
    {ps : List ProviderConfig} {errors : ErrDict} {pid : String} {n : Nat}
    (h : Ev.attempt pid n ∈ (providersLoop beh s ps errors).2) :
    ∃ p, p ∈ ps ∧ pid = p.id := by
  induction ps generalizing errors with
  | nil => simp [providersLoop] at h
  | cons p ps ih =>
      simp only [providersLoop] at h
      rcases hs : (retryLoop beh s p s.max_retries 0 errors).1 with _ | resp
      · rw [hs] at h
        by_cases hsw : s.auto_switch
        · simp only [hsw, if_pos] at h
          rcases List.mem_append.mp h with h | h
          · exact ⟨p, List.mem_cons_self .., retryLoop_attempt_mem h⟩
          · rcases ih h with ⟨q, hq, rfl⟩
            exact ⟨q, List.mem_cons_of_mem _ hq, rfl⟩
        · simp only [hsw, if_neg, Bool.false_eq_true, not_false_iff] at h
          exact ⟨p, List.mem_cons_self .., retryLoop_attempt_mem h⟩
      · rw [hs] at h
        exact ⟨p, List.mem_cons_self .., retryLoop_attempt_mem h⟩

/-- C6: `getEnabledProviders` returns exactly the enabled providers, in
ascending priority order with ties broken by insertion order (the sublist at
each fixed priority equals the filtered source list, which pins the stable
tie-break), and `complete` without a `specificProviderId` only ever attempts
ids of enabled providers. -/
theorem c6_enabled_sorted_stable_and_never_disabled (cfg : ProvidersConfig) :
    ((cfg.get_enabled_providers.Pairwise (fun a b => a.priority ≤ b.priority))
      ∧ (∀ q, q ∈ cfg.get_enabled_providers ↔ q ∈ cfg.providers ∧ q.enabled = true)
      ∧ (∀ p : Int, cfg.get_enabled_providers.filter (fun q => q.priority == p)
          = (cfg.providers.filter (fun q => q.enabled)).filter (fun q => q.priority == p)))
    ∧ (∀ (beh : Beh) (pid : String) (n : Nat),
        Ev.attempt pid n ∈ (complete beh cfg none).events →
        ∃ q, q ∈ cfg.providers ∧ q.id = pid ∧ q.enabled = true) := by
  refine ⟨⟨pairwise_sortedByPriority _, ?_, ?_⟩, ?_⟩
  · intro q
    simp [ProvidersConfig.get_enabled_providers, mem_sortedByPriority, List.mem_filter]
  · intro p
    exact filter_sortedByPriority _ p
  · intro beh pid n h
    simp only [complete] at h
    split at h
    · simp at h
    · rcases providersLoop_attempt_mem h with ⟨q, hq, rfl⟩
      simp only [candidates, ProvidersConfig.get_enabled_providers,
        mem_sortedByPriority, List.mem_filter] at hq
      exact ⟨q, hq.1, rfl, hq.2⟩

/-- Example registry with one enabled and one disabled provider, used to
instantiate `c6_enabled_sorted_stable_and_never_disabled`. -/
def c6cfg : ProvidersConfig :=
  { providers := [{ id := "a", name := "A", priority := 2 },
                  { id := "d", name := "D", priority := 1, enabled := false }],
    settings := { max_retries := 1 } }

/-- Concrete instantiation of the hypothesis-bearing part of
`c6_enabled_sorted_stable_and_never_disabled`: in a registry with an enabled
and a disabled provider, an attempt event observed in a `complete` trace names
an enabled provider. -/
theorem c6_witness :
    (Ev.attempt "a" 1 ∈ (complete (fun _ _ => .error "boom") c6cfg none).events)
    ∧ ∃ q, q ∈ c6cfg.providers ∧ q.id = "a" ∧ q.enabled = true := by
  constructor
  · norm_num [complete, candidates, c6cfg, ProvidersConfig.get_enabled_providers,
      sortedByPriority, insertByPriority, providersLoop, retryLoop, dictSet]
  · exact (c6_enabled_sorted_stable_and_never_disabled c6cfg).2 (fun _ _ => .error "boom") "a" 1
      (by norm_num [complete, candidates, c6cfg, ProvidersConfig.get_enabled_providers,
        sortedByPriority, insertByPriority, providersLoop, retryLoop, dictSet])

/-- Trace of one provider that fails every attempt: `r` attempts (1-based
numbers starting at `a + 1`), with a backoff wait of
`delay * 2 ^ attemptIndex` after every failed attempt except the last, and no
wait after the last attempt. -/
def failPattern (pid : String) (delay : Rat) : Nat → Nat → List Ev
  | 0, _ => []
  | r + 1, a =>
      .attempt pid (a + 1) ::
        (if r = 0 then [] else .wait (delay * 2 ^ a) :: failPattern pid delay r (a + 1))

lemma attempt_mem_failPattern {pid q : String} {delay : Rat} {r a m : Nat}
    (h : Ev.attempt q m ∈ failPattern pid delay r a) : q = pid := by
  induction r generalizing a with
  | zero => simp [failPattern] at h
  | succ r ih =>
      simp only [failPattern, List.mem_cons] at h
      rcases h with he | h
      · simp only [Ev.attempt.injEq] at he
        exact he.1
      · by_cases hr : r = 0
        · rw [if_pos hr] at h
          simp at h
        · rw [if_neg hr] at h
          rcases List.mem_cons.mp h with he | h
          · simp at he
          · exact ih h

lemma any_dictSet (d : ErrDict) (k v : String) :
    (dictSet d k v).any (fun kv => kv.1 == k) = true := by
  by_cases h : d.any (fun kv => kv.1 == k)
  · rw [dictSet, if_pos h]
    rcases List.any_eq_true.mp h with ⟨kv, hmem, hk⟩
    exact List.any_eq_true.mpr ⟨(k, v), List.mem_map.mpr ⟨kv, hmem, by simp [hk]⟩, by simp⟩
  · rw [dictSet, if_neg h]
    exact List.any_eq_true.mpr ⟨(k, v), by simp⟩

lemma dictSet_dictSet (d : ErrDict) (k v w : String) :
    dictSet (dictSet d k v) k w = dictSet d k w := by
  conv_lhs => rw [dictSet]
  rw [if_pos (any_dictSet d k v)]
  by_cases h : d.any (fun kv => kv.1 == k)
  · rw [dictSet, if_pos h, dictSet, if_pos h, List.map_map]
    apply List.map_congr_left
    intro kv _
    by_cases hk : kv.1 == k
    · have hk' : kv.1 = k := by simpa using hk
      simp [hk']
    · simp only [Function.comp_apply]
      rw [if_neg (by simp_all), if_neg (by simp_all), if_neg (by simp_all)]
  · rw [dictSet, if_neg h, dictSet, if_neg h, List.map_append]
    simp only [List.any_eq_true, not_exists, not_and] at h
    have hfix : ∀ kv ∈ d, (if kv.1 == k then (k, w) else kv) = kv := by
      intro kv hmem
      exact if_neg (h kv hmem)
    rw [List.map_congr_left hfix]
    simp

lemma retryLoop_fail {beh : Beh} {s : MultiProviderSettings} {p : ProviderConfig}
    {e : Nat → String} (hfail : ∀ k, beh p.id k = .error (e k)) :
    ∀ (r a : Nat) (errors : ErrDict), 1 ≤ r →
    retryLoop beh s p r a errors =
      (none, dictSet errors p.name (e (a + r - 1)),
        failPattern p.id s.retry_delay r a) := by
  intro r
  induction r with
  | zero => omega
  | succ r ih =>
      intro a errors _
      rw [retryLoop, hfail a]
      by_cases hr : r = 0
      · subst hr
        simp [failPattern]
      · have h1 : 1 ≤ r := Nat.one_le_iff_ne_zero.mpr hr
        simp only [if_neg hr]
        rw [ih (a + 1) (dictSet errors p.name (e a)) h1]
        rw [dictSet_dictSet]
        have : a + 1 + r - 1 = a + (r + 1) - 1 := by omega
        rw [this, failPattern, if_neg hr]

/-- The providers actually tried by the outer loop when every attempt fails:
all of them when `auto_switch` is set, otherwise only the first. -/
def triedOnTotalFailure (s : MultiProviderSettings) (ps : List ProviderConfig) :
    List ProviderConfig :=
  if s.auto_switch then ps else ps.take 1

lemma providersLoop_fail_events {beh : Beh} {s : MultiProviderSettings}
    {ps : List ProviderConfig}
    (hfail : ∀ p ∈ ps, ∀ k, ∃ m, beh p.id k = .error m) :
    ∀ errors : ErrDict,
    (providersLoop beh s ps errors).2 =
      (triedOnTotalFailure s ps).flatMap
        (fun p => failPattern p.id s.retry_delay s.max_retries 0) := by
  induction ps with
  | nil => intro errors; simp [providersLoop, triedOnTotalFailure]
  | cons p ps ih =>
      intro errors
      have hp : ∀ k, beh p.id k = .error ((fun k => (hfail p (List.mem_cons_self ..) k).choose) k) :=
        fun k => (hfail p (List.mem_cons_self ..) k).choose_spec
      rw [providersLoop]
      by_cases hR : 1 ≤ s.max_retries
      · rw [retryLoop_fail hp _ _ _ hR]
        simp only
        by_cases hsw : s.auto_switch
        · rw [if_pos hsw, ih (fun q hq => hfail q (List.mem_cons_of_mem _ hq))]
          simp [triedOnTotalFailure, hsw]
        · rw [if_neg hsw]
          simp [triedOnTotalFailure, hsw]
      · have h0 : s.max_retries = 0 := by omega
        rw [h0]
        simp only [retryLoop]
        by_cases hsw : s.auto_switch
        · rw [if_pos hsw, ih (fun q hq => hfail q (List.mem_cons_of_mem _ hq))]
          simp [triedOnTotalFailure, hsw, h0, failPattern]
        · rw [if_neg hsw]
          simp [triedOnTotalFailure, hsw, h0, failPattern]

/-- C1: when every candidate provider fails on every attempt, the full trace
of `complete` is, provider by provider (all candidates under `auto_switch`,
else just the first), exactly the pattern `failPattern`: `max_retries`
attempts numbered from 1, a wait of `retry_delay * 2 ^ (attempt - 1)` between
consecutive attempts of the same provider, and no wait after a provider's
last attempt. -/
theorem c1_retry_backoff_trace (beh : Beh) (cfg : ProvidersConfig) (spec : Option String)
    (hfail : ∀ p ∈ candidates cfg spec, ∀ k, ∃ m, beh p.id k = .error m) :
    (complete beh cfg spec).events =
      (triedOnTotalFailure cfg.settings (candidates cfg spec)).flatMap
        (fun p => failPattern p.id cfg.settings.retry_delay cfg.settings.max_retries 0) := by
  rw [complete]
  by_cases hempty : (candidates cfg spec).isEmpty
  · rw [if_pos hempty]
    rw [List.isEmpty_iff] at hempty
    simp [hempty, triedOnTotalFailure]
  · rw [if_neg hempty]
    exact providersLoop_fail_events hfail []

/-- Concrete instantiation of `c1_retry_backoff_trace`: one always-failing
provider, `max_retries = 3`, `retry_delay = 1` gives attempts 1, 2, 3 with
waits of 1s then 2s between them and no trailing wait. -/
theorem c1_witness :
    (complete (fun _ _ => .error "boom")
        { providers := [{ id := "a", name := "A" }] } none).events =
      [.attempt "a" 1, .wait 1, .attempt "a" 2, .wait 2, .attempt "a" 3] := by
  have h := c1_retry_backoff_trace (fun _ _ => .error "boom")
    { providers := [{ id := "a", name := "A" }] } none
    (fun _ _ _ => ⟨"boom", rfl⟩)
  rw [h]
  norm_num [candidates, ProvidersConfig.get_enabled_providers, sortedByPriority,
    insertByPriority, triedOnTotalFailure, failPattern]

/-- C5: with `auto_switch` off and a first enabled provider that fails every
attempt, `complete` raises `MultiClientError` whose error dict maps only that
provider's name to its last error message, and the trace is that provider's
retry pattern alone — no later candidate is ever attempted. -/
theorem c5_no_failover (beh : Beh) (cfg : ProvidersConfig) (p : ProviderConfig)
    (ps : List ProviderConfig) (e : Nat → String)
    (hsw : cfg.settings.auto_switch = false)
    (hcand : cfg.get_enabled_providers = p :: ps)
    (hfail : ∀ k, beh p.id k = .error (e k))
    (hR : 1 ≤ cfg.settings.max_retries) :
    (complete beh cfg none).outcome =
        .error [(p.name, e (cfg.settings.max_retries - 1))]
      ∧ (complete beh cfg none).events =
          failPattern p.id cfg.settings.retry_delay cfg.settings.max_retries 0
      ∧ ∀ (q : String) (m : Nat),
          Ev.attempt q m ∈ (complete beh cfg none).events → q = p.id := by
  have hcands : candidates cfg none = p :: ps := hcand
  have hcc : complete beh cfg none =
      { outcome := .error [(p.name, e (cfg.settings.max_retries - 1))],
        events := failPattern p.id cfg.settings.retry_delay cfg.settings.max_retries 0 } := by
    rw [complete, hcands]
    rw [if_neg (by simp)]
    rw [providersLoop, retryLoop_fail hfail _ _ _ hR]
    simp [hsw, dictSet]
  refine ⟨by rw [hcc], by rw [hcc], ?_⟩
  intro q m hmem
  rw [hcc] at hmem
  exact attempt_mem_failPattern hmem

/-- Configuration for the C5 witness: failover disabled, two enabled
providers, the first of which always fails. -/
def c5cfg : ProvidersConfig :=
  { providers := [{ id := "a", name := "A", priority := 1 },
                  { id := "b", name := "B", priority := 2 }],
    settings := { auto_switch := false, max_retries := 2 } }

/-- Concrete instantiation of `c5_no_failover`: the error dict holds only the
first provider's last error, and provider `b` is never attempted. -/
theorem c5_witness :
    (complete (fun pid k => if pid = "a" then .error ("fail" ++ toString k) else .ok ⟨"hi"⟩)
        c5cfg none).outcome = .error [("A", "fail1")]
      ∧ (complete (fun pid k => if pid = "a" then .error ("fail" ++ toString k) else .ok ⟨"hi"⟩)
          c5cfg none).events = failPattern "a" 1 2 0 := by
  have h := c5_no_failover
    (fun pid k => if pid = "a" then .error ("fail" ++ toString k) else .ok ⟨"hi"⟩)
    c5cfg { id := "a", name := "A", priority := 1 } [{ id := "b", name := "B", priority := 2 }]
    (fun k => "fail" ++ toString k) rfl
    (by norm_num [c5cfg, ProvidersConfig.get_enabled_providers, sortedByPriority, insertByPriority])
    (fun k => by norm_num) (by norm_num [c5cfg])
  exact ⟨h.1, h.2.1⟩

lemma retryLoop_ok {beh : Beh} {s : MultiProviderSettings} {p : ProviderConfig}
    {r a : Nat} {errors : ErrDict} {resp : LLMResponse}
    (h : (retryLoop beh s p r a errors).1 = some resp) :
    ∃ evs n, (retryLoop beh s p r a errors).2.2 = evs ++ [.attempt p.id n]
      ∧ 1 ≤ n ∧ beh p.id (n - 1) = .ok resp := by
  induction r generalizing a errors with
  | zero => simp [retryLoop] at h
  | succ r ih =>
      rw [retryLoop] at h ⊢
      rcases hb : beh p.id a with msg | resp' <;> (try rw [hb] at h) <;> dsimp only at h ⊢
      · by_cases hr : r = 0
        · rw [if_pos hr] at h
          simp at h
        · rw [if_neg hr] at h ⊢
          rcases ih h with ⟨evs, n, hev, hn, hok⟩
          exact ⟨.attempt p.id (a + 1) :: .wait (s.retry_delay * 2 ^ a) :: evs, n,
            by rw [hev]
               rfl, hn, hok⟩
      · cases h
        exact ⟨[], a + 1, rfl, by omega, by simpa using hb⟩

lemma providersLoop_ok {beh : Beh} {s : MultiProviderSettings}
    {ps : List ProviderConfig} {errors : ErrDict} {resp : LLMResponse}
    (h : (providersLoop beh s ps errors).1 = .ok resp) :
    ∃ evs p n, p ∈ ps ∧ (providersLoop beh s ps errors).2 = evs ++ [.attempt p.id n]
      ∧ 1 ≤ n ∧ beh p.id (n - 1) = .ok resp := by
  induction ps generalizing errors with
  | nil => simp [providersLoop] at h
  | cons p ps ih =>
      rw [providersLoop] at h ⊢
      rcases hs : (retryLoop beh s p s.max_retries 0 errors).1 with _ | resp' <;>
        (try rw [hs] at h) <;> dsimp only at h ⊢
      · by_cases hsw : s.auto_switch
        · rw [if_pos hsw] at h ⊢
          rcases ih h with ⟨evs, q, n, hq, hev, hn, hok⟩
          refine ⟨(retryLoop beh s p s.max_retries 0 errors).2.2 ++ evs, q, n,
            List.mem_cons_of_mem _ hq, ?_, hn, hok⟩
          rw [hev, List.append_assoc]
        · rw [if_neg hsw] at h
          cases h
      · cases h
        rcases retryLoop_ok hs with ⟨evs, n, hev, hn, hok⟩
        exact ⟨evs, p, n, List.mem_cons_self .., hev, hn, hok⟩

/-- C4: whenever `complete` succeeds, the returned response is exactly what
the successful provider's attempt produced, and that successful attempt is
the final event of the trace — no further attempt is made against that
provider and no later candidate is ever attempted. -/
theorem c4_success_short_circuit (beh : Beh) (cfg : ProvidersConfig)
    (spec : Option String) (resp : LLMResponse)
    (h : (complete beh cfg spec).outcome = .ok resp) :
    ∃ evs p n, p ∈ candidates cfg spec ∧ 1 ≤ n ∧ beh p.id (n - 1) = .ok resp
      ∧ (complete beh cfg spec).events = evs ++ [.attempt p.id n] := by
  rw [complete] at h ⊢
  by_cases hempty : (candidates cfg spec).isEmpty
  · rw [if_pos hempty] at h
    cases h
  · rw [if_neg hempty] at h ⊢
    rcases providersLoop_ok h with ⟨evs, p, n, hp, hev, hn, hok⟩
    exact ⟨evs, p, n, hp, hn, hok, hev⟩

/-- Configuration for the C4 witness: two enabled providers, the first always
failing and the second always succeeding. -/
def c4cfg : ProvidersConfig :=
  { providers := [{ id := "a", name := "A", priority := 1 },
                  { id := "b", name := "B", priority := 2 }],
    settings := { max_retries := 2 } }

/-- Behaviour for the C4 witness. -/
def c4beh : Beh := fun pid _ => if pid = "a" then .error "down" else .ok ⟨"hi"⟩

/-- Concrete instantiation of `c4_success_short_circuit`: with the first
provider always failing and the second succeeding, `complete` returns the
second provider's response and the successful attempt closes the trace. -/
theorem c4_witness :
    (complete c4beh c4cfg none).outcome = .ok ⟨"hi"⟩
      ∧ ∃ evs p n, p ∈ candidates c4cfg none ∧ 1 ≤ n ∧ c4beh p.id (n - 1) = .ok ⟨"hi"⟩
          ∧ (complete c4beh c4cfg none).events = evs ++ [.attempt p.id n] := by
  have hout : (complete c4beh c4cfg none).outcome = .ok ⟨"hi"⟩ := rfl
  exact ⟨hout, c4_success_short_circuit c4beh c4cfg none ⟨"hi"⟩ hout⟩

lemma retryLoop_events_cons {beh : Beh} {s : MultiProviderSettings} {p : ProviderConfig}
    {r : Nat} {errors : ErrDict} (hr : 1 ≤ r) :
    ∃ t, (retryLoop beh s p r 0 errors).2.2 = .attempt p.id 1 :: t := by
  rcases r with _ | r
  · omega
  · rw [retryLoop]
    rcases beh p.id 0 with msg | resp <;> dsimp only
    · by_cases h0 : r = 0
      · exact ⟨[], by rw [if_pos h0]⟩
      · exact ⟨_, by rw [if_neg h0]⟩
    · exact ⟨[], rfl⟩

/-- C10: `complete` with an explicit `specificProviderId` naming an existing
but disabled provider still attempts that provider (its first event is
attempt 1 against it) — the explicit-provider path never checks `enabled` and
`complete` has no disabled-provider failure — whereas `test_provider` rejects
the same id immediately with the "is disabled" message. -/
theorem c10_disabled_specific_still_attempted (beh : Beh) (cfg : ProvidersConfig)
    (pid : String) (p : ProviderConfig)
    (hfind : cfg.get_provider pid = some p)
    (hdis : p.enabled = false)
    (hR : 1 ≤ cfg.settings.max_retries)
    (hpid : pid ≠ "") :
    (complete beh cfg (some pid)).events.head? = some (.attempt p.id 1)
      ∧ test_provider beh cfg pid = (false, "Provider " ++ pid ++ " is disabled") := by
  constructor
  · have hcands : candidates cfg (some pid) = [p] := by
      simp [candidates, hpid, hfind]
    rw [complete, hcands]
    rw [if_neg (by simp)]
    rw [providersLoop]
    rcases @retryLoop_events_cons beh cfg.settings p cfg.settings.max_retries [] hR
      with ⟨t, ht⟩
    rcases hs : (retryLoop beh cfg.settings p cfg.settings.max_retries 0 []).1 with _ | resp <;>
      dsimp only
    · by_cases hsw : cfg.settings.auto_switch
      · rw [if_pos hsw]
        simp [providersLoop, ht]
      · rw [if_neg hsw]
        simp [ht]
    · simp [ht]
  · rw [test_provider, hfind]
    simp [hdis]

/-- Configuration for the C10 witness: a single, disabled provider. -/
def c10cfg : ProvidersConfig :=
  { providers := [{ id := "d", name := "D", enabled := false }] }

/-- Concrete instantiation of `c10_disabled_specific_still_attempted` for a
disabled provider addressed explicitly by id. -/
theorem c10_witness :
    (complete (fun _ _ => .ok ⟨"hi"⟩) c10cfg (some "d")).events.head? =
        some (.attempt "d" 1)
      ∧ test_provider (fun _ _ => .ok ⟨"hi"⟩) c10cfg "d" =
        (false, "Provider " ++ "d" ++ " is disabled") :=
  c10_disabled_specific_still_attempted (fun _ _ => .ok ⟨"hi"⟩) c10cfg "d"
    { id := "d", name := "D", enabled := false }
    (by norm_num [c10cfg, ProvidersConfig.get_provider, List.find?])
    rfl (by norm_num [c10cfg]) (by decide)

/-! The SynthesisParser
(`SyncDecisionPhase._extract_decisions_and_actions` in
`deamcompan/src/deamcompan/core/meetings/phases.py`).  Python string
primitives are modelled on `List Char`:
* `findSplit sep s` finds the leftmost occurrence of `sep` in `s`, the search
  primitive behind Python `in`, `str.split` and `str.split(sep, 1)`;
* `pyStrip` models `str.strip()` (both parsers below share it, so the exact
  whitespace alphabet is immaterial to the comparison);
* fresh ids (`str(uuid.uuid4())[:8]`) are modelled as an abstract supply
  `gen : Nat → String`, consumed one id per extracted item in line order by
  both parsers. -/

/-- Leftmost-occurrence decomposition: `findSplit sep s = some (pre, post)`
when `sep` occurs in `s`, where `s = pre ++ sep ++ post` and `pre` is
shortest; `none` when `sep` does not occur. -/
def findSplit (sep : List Char) : List Char → Option (List Char × List Char)
  | [] => none
  | c :: cs =>
      if sep.isPrefixOf (c :: cs) then some ([], (c :: cs).drop sep.length)
      else
        match findSplit sep cs with
        | some (pre, post) => some (c :: pre, post)
        | none => none

/-- Python `sep in s` (substring containment, non-empty separator). -/
def pyIn (sep s : String) : Bool := (findSplit sep.data s.data).isSome

/-- Python `s.split(sep, 1)[1]`: everything after the first occurrence of
`sep`.  Meaningful when `pyIn sep s = true`; returns `s` otherwise. -/
def pyAfterFirst (sep s : String) : String :=
  match findSplit sep.data s.data with
  | some (_, post) => ⟨post⟩
  | none => s

/-- The fields `parts[0]` and `parts[1]` of Python `s.split(sep)` (meaningful
when `pyIn sep s = true`): the text before the first occurrence, and the text
between the first occurrence and the next one — or all of the rest when there
is no further occurrence.  `_extract_decisions_and_actions` reads only these
two fields of the full split. -/
def pySplitFields (sep s : String) : String × String :=
  match findSplit sep.data s.data with
  | none => (s, s)
  | some (pre, post) =>
      match findSplit sep.data post with
      | none => (⟨pre⟩, ⟨post⟩)
      | some (mid, _) => (⟨pre⟩, ⟨mid⟩)

/-- Python `s.startswith(p)`. -/
def pyStarts (p s : String) : Bool := p.data.isPrefixOf s.data

/-- Python `s.strip()` on the shared whitespace alphabet of `Char.isWhitespace`. -/
def pyStrip (s : String) : String :=
  ⟨((s.data.dropWhile Char.isWhitespace).reverse.dropWhile Char.isWhitespace).reverse⟩

/-- Python `s.split("\n")` (structural single-character split). -/
def splitNl : List Char → List (List Char)
  | [] => [[]]
  | c :: cs =>
      if c = '\n' then [] :: splitNl cs
      else
        match splitNl cs with
        | l :: ls => (c :: l) :: ls
        | [] => [[c]]

/-- The lines of a synthesis text, as Python `synthesis.split("\n")`. -/
def pyLines (s : String) : List String := (splitNl s.data).map (fun l => ⟨l⟩)

/-- Embeds the decision dicts appended by the parser
(`{"id": ..., "description": ..., "status": "proposed"}`). -/
structure ExtractedDecision where
  id : String
  description : String
  status : String
  deriving Repr, DecidableEq

/-- Embeds the action-item dicts appended by the parser. -/
structure ExtractedActionItem where
  id : String
  description : String
  owner : String
  deadline : String
  status : String
  deriving Repr, DecidableEq

/-- Parser state: next index into the fresh-id supply, plus the two output
lists in line order. -/
structure ExtractState where
  nextId : Nat
  decisions : List ExtractedDecision
  action_items : List ExtractedActionItem
  deriving Repr, DecidableEq

/-- Embeds one iteration of the line loop of
`_extract_decisions_and_actions`. -/
def extractLine (gen : Nat → String) (st : ExtractState) (rawLine : String) : ExtractState :=
  let line := pyStrip rawLine
  if pyStarts "DECISION:" line || pyStarts "2. DECISION:" line then
    let decision_text := if pyIn ":" line then pyStrip (pyAfterFirst ":" line) else line
    { st with
      nextId := st.nextId + 1
      decisions := st.decisions ++ [⟨gen st.nextId, decision_text, "proposed"⟩] }
  else if pyStarts "ACTION:" line || pyStarts "3. ACTION:" line then
    let action_text := if pyIn ":" line then pyStrip (pyAfterFirst ":" line) else line
    if pyIn "| OWNER:" action_text then
      let parts := pySplitFields "| OWNER:" action_text
      let action_desc := pyStrip parts.1
      let rest := parts.2
      if pyIn "| DEADLINE:" rest then
        let fields := pySplitFields "| DEADLINE:" rest
        { st with
          nextId := st.nextId + 1
          action_items := st.action_items ++
            [⟨gen st.nextId, action_desc, pyStrip fields.1, pyStrip fields.2, "todo"⟩] }
      else
        { st with
          nextId := st.nextId + 1
          action_items := st.action_items ++
            [⟨gen st.nextId, action_desc, pyStrip rest, "TBD", "todo"⟩] }
    else
      { st with
        nextId := st.nextId + 1
        action_items := st.action_items ++
          [⟨gen st.nextId, action_text, "TBD", "TBD", "todo"⟩] }
  else st

/-- Embeds `SyncDecisionPhase._extract_decisions_and_actions`: fold the line
handler over `synthesis.split("\n")` starting from empty output lists and
return the extracted decisions and action items. -/
def extract_decisions_and_actions (gen : Nat → String) (synthesis : String) :
    List ExtractedDecision × List ExtractedActionItem :=
  let st := (pyLines synthesis).foldl (extractLine gen) ⟨0, [], []⟩
  (st.decisions, st.action_items)

/-- Split at the FIRST occurrence only, taking all the text after it — the
reading of "split on the delimiter into two parts" used by the specification
text. -/
def specSplitAtFirst (sep s : String) : Option (String × String) :=
  match findSplit sep.data s.data with
  | none => none
  | some (pre, post) => some (⟨pre⟩, ⟨post⟩)

/-- Drop the first `n` characters: the remainder of a line after an
`n`-character label. -/
def strDrop (n : Nat) (s : String) : String := ⟨s.data.drop n⟩

/-- Reference line handler, written from the specification's words: the
description is the remainder of the line after the matched label (trimmed); an
action remainder is split at the first `"| OWNER:"` into description and rest,
and the rest is split at the first `"| DEADLINE:"` into owner and deadline,
each part taking all of the text after its delimiter; owner and deadline
default to `"TBD"` when their delimiter is absent. -/
def specRefLine (gen : Nat → String) (st : ExtractState) (rawLine : String) : ExtractState :=
  let line := pyStrip rawLine
  if pyStarts "DECISION:" line || pyStarts "2. DECISION:" line then
    let d := if pyStarts "DECISION:" line then pyStrip (strDrop 9 line)
             else pyStrip (strDrop 12 line)
    { st with
      nextId := st.nextId + 1
      decisions := st.decisions ++ [⟨gen st.nextId, d, "proposed"⟩] }
  else if pyStarts "ACTION:" line || pyStarts "3. ACTION:" line then
    let r := if pyStarts "ACTION:" line then pyStrip (strDrop 7 line)
             else pyStrip (strDrop 10 line)
    match specSplitAtFirst "| OWNER:" r with
    | none =>
        { st with
          nextId := st.nextId + 1
          action_items := st.action_items ++ [⟨gen st.nextId, r, "TBD", "TBD", "todo"⟩] }
    | some (bef, aft) =>
        match specSplitAtFirst "| DEADLINE:" aft with
        | none =>
            { st with
              nextId := st.nextId + 1
              action_items := st.action_items ++
                [⟨gen st.nextId, pyStrip bef, pyStrip aft, "TBD", "todo"⟩] }
        | some (o, dl) =>
            { st with
              nextId := st.nextId + 1
              action_items := st.action_items ++
                [⟨gen st.nextId, pyStrip bef, pyStrip o, pyStrip dl, "todo"⟩] }
  else st

/-- Reference parser assembled from `specRefLine` exactly as the claim words
it. -/
def specSynthesisRef (gen : Nat → String) (synthesis : String) :
    List ExtractedDecision × List ExtractedActionItem :=
  let st := (pyLines synthesis).foldl (specRefLine gen) ⟨0, [], []⟩
  (st.decisions, st.action_items)

/-- C2 counterexample: on a line whose owner field itself contains a second
`"| OWNER:"` delimiter, Python `split(sep)[1]` keeps only the segment between
the first and second occurrences, while the reference reading keeps all of
the text after the first occurrence — the parsers disagree (owner `"b"`
versus owner `"b| OWNER: c"`). -/
theorem c2_counterexample :
    extract_decisions_and_actions (fun _ => "id0") "ACTION: a| OWNER: b| OWNER: c"
      ≠ specSynthesisRef (fun _ => "id0") "ACTION: a| OWNER: b| OWNER: c" := by
  decide

/-- Amended reference line handler: as `specRefLine`, but — as the
counterexample forces — each "split" yields the Python `split(sep)` fields
`parts[0]` and `parts[1]`, so the text after a delimiter is truncated at the
next occurrence of the same delimiter. -/
def specRefLineAmended (gen : Nat → String) (st : ExtractState) (rawLine : String) :
    ExtractState :=
  let line := pyStrip rawLine
  if pyStarts "DECISION:" line || pyStarts "2. DECISION:" line then
    let d := if pyStarts "DECISION:" line then pyStrip (strDrop 9 line)
             else pyStrip (strDrop 12 line)
    { st with
      nextId := st.nextId + 1
      decisions := st.decisions ++ [⟨gen st.nextId, d, "proposed"⟩] }
  else if pyStarts "ACTION:" line || pyStarts "3. ACTION:" line then
    let r := if pyStarts "ACTION:" line then pyStrip (strDrop 7 line)
             else pyStrip (strDrop 10 line)
    if pyIn "| OWNER:" r then
      let parts := pySplitFields "| OWNER:" r
      let action_desc := pyStrip parts.1
      let rest := parts.2
      if pyIn "| DEADLINE:" rest then
        let fields := pySplitFields "| DEADLINE:" rest
        { st with
          nextId := st.nextId + 1
          action_items := st.action_items ++
            [⟨gen st.nextId, action_desc, pyStrip fields.1, pyStrip fields.2, "todo"⟩] }
      else
        { st with
          nextId := st.nextId + 1
          action_items := st.action_items ++
            [⟨gen st.nextId, action_desc, pyStrip rest, "TBD", "todo"⟩] }
    else
      { st with
        nextId := st.nextId + 1
        action_items := st.action_items ++
          [⟨gen st.nextId, r, "TBD", "TBD", "todo"⟩] }
  else st

/-- Amended reference parser. -/
def specSynthesisRefAmended (gen : Nat → String) (synthesis : String) :
    List ExtractedDecision × List ExtractedActionItem :=
  let st := (pyLines synthesis).foldl (specRefLineAmended gen) ⟨0, [], []⟩
  (st.decisions, st.action_items)

/-- A line that matches one of the four parsed labels after trimming. -/
def lineMatches (rawLine : String) : Bool :=
  let line := pyStrip rawLine
  pyStarts "DECISION:" line || pyStarts "2. DECISION:" line ||
    pyStarts "ACTION:" line || pyStarts "3. ACTION:" line

lemma isPrefixOf_exists {l₁ l₂ : List Char} (h : l₁.isPrefixOf l₂ = true) :
    ∃ t, l₂ = l₁ ++ t := by
  induction l₁ generalizing l₂ with
  | nil => exact ⟨l₂, rfl⟩
  | cons a as ih =>
      cases l₂ with
      | nil => simp [List.isPrefixOf] at h
      | cons b bs =>
          simp only [List.isPrefixOf, Bool.and_eq_true, beq_iff_eq] at h
          obtain ⟨rfl, h2⟩ := h
          obtain ⟨t, rfl⟩ := ih h2
          exact ⟨t, rfl⟩

lemma findSplit_single {c : Char} {a t : List Char} (h : c ∉ a) :
    findSplit [c] (a ++ c :: t) = some (a, t) := by
  induction a with
  | nil => simp [findSplit, List.isPrefixOf]
  | cons x a' ih =>
      have hxc : (c == x) = false := by
        simp only [List.mem_cons, not_or] at h
        exact beq_eq_false_iff_ne.mpr h.1
      rw [List.cons_append, findSplit,
        if_neg (by simp [List.isPrefixOf, hxc]),
        ih (fun hm => h (List.mem_cons_of_mem _ hm))]

lemma label_afterFirst {label core line : String}
    (hlab : label.data = core.data ++ [':'])
    (hc : ':' ∉ core.data)
    (h : pyStarts label line = true) :
    pyIn ":" line = true ∧ pyAfterFirst ":" line = strDrop label.data.length line := by
  obtain ⟨t, ht⟩ := isPrefixOf_exists h
  have hfs : findSplit [':'] line.data = some (core.data, t) := by
    rw [ht, hlab, List.append_assoc]
    exact findSplit_single hc
  have hcolon : (":" : String).data = [':'] := rfl
  refine ⟨?_, ?_⟩
  · rw [pyIn, hcolon, hfs]
    rfl
  · rw [pyAfterFirst, hcolon, hfs, strDrop, ht]
    exact congrArg String.mk (List.drop_left label.data t).symm

lemma desc_branch_eq (label core : String) (n : Nat)
    (hlab : label.data = core.data ++ [':'])
    (hc : ':' ∉ core.data)
    (hn : label.data.length = n)
    {line : String} (h : pyStarts label line = true) :
    (if pyIn ":" line then pyStrip (pyAfterFirst ":" line) else line)
      = pyStrip (strDrop n line) := by
  obtain ⟨hin, hafter⟩ := label_afterFirst hlab hc h
  rw [if_pos hin, hafter, hn]

lemma extractLine_eq_amended (gen : Nat → String) (st : ExtractState) (rawLine : String) :
    extractLine gen st rawLine = specRefLineAmended gen st rawLine := by
  simp only [extractLine, specRefLineAmended]
  by_cases hdec : (pyStarts "DECISION:" (pyStrip rawLine)
      || pyStarts "2. DECISION:" (pyStrip rawLine)) = true
  · simp only [if_pos hdec]
    by_cases hd1 : pyStarts "DECISION:" (pyStrip rawLine) = true
    · rw [desc_branch_eq "DECISION:" "DECISION" 9 (by decide) (by decide) (by decide) hd1,
        if_pos hd1]
    · have hd2 : pyStarts "2. DECISION:" (pyStrip rawLine) = true := by
        rcases Bool.or_eq_true_iff.mp hdec with h | h
        · exact absurd h hd1
        · exact h
      have hd1' : pyStarts "DECISION:" (pyStrip rawLine) = false := by
        simpa using hd1
      rw [desc_branch_eq "2. DECISION:" "2. DECISION" 12 (by decide) (by decide) (by decide) hd2]
      simp [hd1']
  · simp only [if_neg hdec]
    by_cases hact : (pyStarts "ACTION:" (pyStrip rawLine)
        || pyStarts "3. ACTION:" (pyStrip rawLine)) = true
    · simp only [if_pos hact]
      by_cases ha1 : pyStarts "ACTION:" (pyStrip rawLine) = true
      · rw [desc_branch_eq "ACTION:" "ACTION" 7 (by decide) (by decide) (by decide) ha1,
          if_pos ha1]
      · have ha2 : pyStarts "3. ACTION:" (pyStrip rawLine) = true := by
          rcases Bool.or_eq_true_iff.mp hact with h | h
          · exact absurd h ha1
          · exact h
        have ha1' : pyStarts "ACTION:" (pyStrip rawLine) = false := by
          simpa using ha1
        rw [desc_branch_eq "3. ACTION:" "3. ACTION" 10 (by decide) (by decide) (by decide) ha2]
        simp [ha1']
    · simp only [if_neg hact]

lemma extractLine_unmatched (gen : Nat → String) (st : ExtractState) (rawLine : String)
    (h : lineMatches rawLine = false) :
    extractLine gen st rawLine = st := by
  simp only [lineMatches, Bool.or_eq_false_iff] at h
  obtain ⟨⟨⟨h1, h2⟩, h3⟩, h4⟩ := h
  simp only [extractLine]
  rw [if_neg (by simp [h1, h2]), if_neg (by simp [h3, h4])]

lemma foldl_fun_congr {α β : Type} {f g : α → β → α} (h : ∀ a b, f a b = g a b)
    (l : List β) (a : α) : l.foldl f a = l.foldl g a := by
  induction l generalizing a with
  | nil => rfl
  | cons b bs ih => rw [List.foldl_cons, List.foldl_cons, h, ih]

/-- C2, amended: with the action-item splits read with Python `split(sep)`
field semantics — `parts[0]` and `parts[1]` of the full split, so the text
after a delimiter is truncated at that delimiter's next occurrence — the
synthesis parser equals the reference on every input and every id supply
(hence is order-preserving), and an input with no matching line yields empty
decision and action lists without error. -/
theorem c2_parser_equals_amended_reference :
    (∀ (gen : Nat → String) (synthesis : String),
        extract_decisions_and_actions gen synthesis = specSynthesisRefAmended gen synthesis)
      ∧ ∀ (gen : Nat → String) (synthesis : String),
          (∀ l ∈ pyLines synthesis, lineMatches l = false) →
          extract_decisions_and_actions gen synthesis = ([], []) := by
  constructor
  · intro gen synthesis
    rw [extract_decisions_and_actions, specSynthesisRefAmended,
      foldl_fun_congr (extractLine_eq_amended gen) (pyLines synthesis) ⟨0, [], []⟩]
  · intro gen synthesis h
    rw [extract_decisions_and_actions]
    have hfold : ∀ (ls : List String) (st : ExtractState),
        (∀ l ∈ ls, lineMatches l = false) → ls.foldl (extractLine gen) st = st := by
      intro ls
      induction ls with
      | nil => intro st _; rfl
      | cons x xs ih =>
          intro st hx
          rw [List.foldl_cons, extractLine_unmatched gen st x (hx x (List.mem_cons_self ..)),
            ih st (fun l hl => hx l (List.mem_cons_of_mem _ hl))]
    rw [hfold _ _ h]

/-- Concrete instantiation of the zero-match clause of
`c2_parser_equals_amended_reference`: a synthesis containing only a summary
line produces empty outputs without error. -/
theorem c2_witness :
    (∀ l ∈ pyLines "1. SUMMARY: all good", lineMatches l = false)
      ∧ extract_decisions_and_actions (fun _ => "id0") "1. SUMMARY: all good" = ([], []) :=
  ⟨by decide,
    c2_parser_equals_amended_reference.2 (fun _ => "id0") "1. SUMMARY: all good" (by decide)⟩

example :
    (ProvidersConfig.get_enabled_providers
      { providers := [{ id := "a", name := "A", priority := 3 },
                      { id := "b", name := "B", priority := 1 },
                      { id := "c", name := "C", priority := 2, enabled := false }] }).map
      (fun p => p.id) = ["b", "a"] := by decide

example :
    (complete (fun _ n => if n = 2 then .ok ⟨"hi"⟩ else .error "boom")
      { providers := [{ id := "a", name := "A" }] } none).events =
    [.attempt "a" 1, .wait 1, .attempt "a" 2, .wait 2, .attempt "a" 3] := by
  norm_num [complete, candidates, ProvidersConfig.get_enabled_providers,
    sortedByPriority, insertByPriority, providersLoop, retryLoop, dictSet]

/-! The meeting orchestrator: `MeetingEngine` (`deamcompan/core/meetings/
engine.py`) and the two phases (`deamcompan/src/deamcompan/core/meetings/
phases.py`).  `await participant.think(prompt)` is abstracted as a function
`String → Except String String` per participant (response text, or the raised
error's message); `add_thought` appends to the agent's private memory and
cannot fail, so it is not modelled; `str(uuid.uuid4())[:8]` ids come from an
abstract supply; the `MeetingType` enum is carried as its string value; the
external `ArtifactStore` save/load calls are out of the modelled core (they
do not influence control flow or the returned results); `AgentThought`
timestamps (wall-clock) are omitted.  Python's mutable list for `agenda` is
modelled by a reference into an explicit heap `ListHeap`, since
`create_meeting` stores the caller's list object itself (`agenda=agenda`). -/

/-- Embeds `MeetingStatus` from `types.py`. -/
inductive MeetingStatus where
  | scheduled
  | in_progress
  | paused
  | completed
  | cancelled
  deriving Repr, DecidableEq

/-- Embeds `MeetingPhase` from `types.py`. -/
inductive MeetingPhase where
  | async_prep
  | sync_decision
  | completed
  deriving Repr, DecidableEq

/-- A meeting participant (a `BaseAgent`): identity plus inference capability.
`hasThink` models `hasattr(participant, "think")`. -/
structure Participant where
  id : String
  role : String
  name : String
  hasThink : Bool := true
  think : String → Except String String

/-- Identity of Python list objects: a heap from references to current
contents. -/
abbrev ListHeap := Nat → List String

/-- Mutation of the list object behind reference `r` (e.g. the caller's
`agenda.append(...)` after meeting creation). -/
def heapSet (h : ListHeap) (r : Nat) (v : List String) : ListHeap :=
  fun x => if x = r then v else h x

/-- Embeds `MeetingContext` (engine.py): the agenda field holds the caller's
list reference, exactly as `MeetingContext(... agenda=agenda ...)` stores the
caller's list object. -/
structure MeetingContext where
  meeting_id : String
  title : String
  meeting_type : String
  agendaRef : Nat
  participants : List Participant
  status : MeetingStatus
  current_phase : MeetingPhase

/-- Python dict update `d[k] = v` for string-keyed insertion-ordered dicts. -/
def updList {α : Type} (d : List (String × α)) (k : String) (v : α) :
    List (String × α) :=
  if d.any (fun kv => kv.1 == k) then
    d.map (fun kv => if kv.1 == k then (k, v) else kv)
  else d ++ [(k, v)]

/-- Python `d.get(k)`. -/
def lookupList {α : Type} (d : List (String × α)) (k : String) : Option α :=
  (d.find? (fun kv => kv.1 == k)).map (fun kv => kv.2)

/-- The engine's in-memory `active_meetings` table. -/
structure EngineState where
  active_meetings : List (String × MeetingContext)

/-- Embeds `MeetingEngine.create_meeting`; `mid` is the generated
`str(uuid.uuid4())[:8]`.  The initial `MeetingLog` written through the
external artifact store is outside the modelled core. -/
def create_meeting (st : EngineState) (mid title meeting_type : String)
    (agendaRef : Nat) (participants : List Participant) :
    EngineState × MeetingContext :=
  let context : MeetingContext :=
    { meeting_id := mid
      title := title
      meeting_type := meeting_type
      agendaRef := agendaRef
      participants := participants
      status := .scheduled
      current_phase := .async_prep }
  (⟨updList st.active_meetings mid context⟩, context)

/-- Embeds the per-participant `prep_results` entry of `AsyncPrepPhase.run`:
a success dict with a `preparation` field, or a failure dict with an `error`
field. -/
inductive PrepResult where
  | prep (agent_id agent_role agent_name preparation : String)
  | err (agent_id agent_role agent_name error : String)
  deriving Repr, DecidableEq

/-- Embeds `AsyncPrepPhase._build_prep_prompt`. -/
def prep_prompt (title meeting_type : String) (p : Participant)
    (agenda : List String) : String :=
  "You are preparing for a meeting: \"" ++ title ++ "\"\n\nYour role: "
    ++ p.role ++ "\nMeeting type: " ++ meeting_type ++ "\n\nAgenda items:\n"
    ++ String.intercalate "\n" (agenda.map (fun item => "- " ++ item))
    ++ "\n\nPlease prepare:\n1. KEY_POINTS: [What you want to communicate]\n"
    ++ "2. RECOMMENDATIONS: [Your suggested actions]\n"
    ++ "3. CONCERNS: [Risks or issues to raise]\n"
    ++ "4. QUESTIONS: [What you need clarified]\n"
    ++ "5. DATA: [Facts or analysis to share]\n\n"
    ++ "Be concise but thorough. Your preparation will be shared with other participants.\n"

/-- One iteration of the `AsyncPrepPhase.run` loop: a participant with a
`think` capability records a success or failure entry under its id; one
without is skipped. -/
def prepStep (title meeting_type : String) (agenda : List String)
    (acc : List (String × PrepResult)) (p : Participant) :
    List (String × PrepResult) :=
  if p.hasThink then
    match p.think (prep_prompt title meeting_type p agenda) with
    | .ok response => updList acc p.id (.prep p.id p.role p.name response)
    | .error e => updList acc p.id (.err p.id p.role p.name e)
  else acc

/-- Embeds `AsyncPrepPhase.run`: the loop over participants in list order. -/
def asyncPrepRun (title meeting_type : String) (participants : List Participant)
    (agenda : List String) : List (String × PrepResult) :=
  participants.foldl (prepStep title meeting_type agenda) []

/-- Embeds `SyncDecisionPhase._build_discussion_context`: the title header
followed by every successful preparation; error entries contribute nothing. -/
def build_discussion_context (title : String)
    (prep_results : List (String × PrepResult)) : String :=
  "Meeting: " ++ title ++ "\n\nPreparations:\n" ++
    String.join (prep_results.map (fun kv =>
      match kv.2 with
      | .prep _ role nm preparation =>
          "\n" ++ nm ++ " (" ++ role ++ "):\n" ++ preparation ++ "\n"
      | .err _ _ _ _ => ""))

/-- The `round_focus` instruction list, indexed by the 0-based round. -/
def round_focus : Nat → String
  | 0 => "Share your perspective and react to others' inputs"
  | _ => "Focus on converging toward decisions and addressing disagreements"

/-- Embeds `SyncDecisionPhase._build_discussion_prompt`. -/
def discussion_prompt (title : String) (p : Participant)
    (discussion_context : String) (round_num : Nat) : String :=
  ("You are in a meeting: \"" ++ title ++ "\"\nYour role: " ++ p.role
      ++ "\nRound: " ++ toString (round_num + 1) ++ " of 2\n\nDiscussion so far:\n")
    ++ discussion_context
    ++ ("\n\nThis round, focus on: " ++ round_focus round_num
      ++ "\n\nProvide your contribution:\n1. REACTION: [Your response to what others said]\n"
      ++ "2. POSITION: [Your stance on key issues]\n"
      ++ "3. PROPOSAL: [Specific suggestions]\n"
      ++ "4. CONCERNS: [Any remaining issues]\n\n"
      ++ "Be constructive and aim for progress toward decisions.\n")

/-- Embeds an `AgentThought` appended to `discussion_log` (the wall-clock
`timestamp` is omitted). -/
structure DiscussionEntry where
  agent_id : String
  agent_role : String
  content : String
  meeting_id : String
  deriving Repr, DecidableEq

/-- One inference turn of the round-robin loop: the round, the speaking
participant, the prompt it was shown, and the call's outcome. -/
structure Turn where
  round : Nat
  part : Participant
  prompt : String
  result : Except String String

/-- The sequential round-robin loop of `SyncDecisionPhase.run`, over the
already-linearised `(round, participant)` visit order: on success the entry
joins the log and `"\n\n{name}: {response}"` joins the context; on failure
only `"\n\n{name}: [Error: {e}]"` joins the context.  Returns the final
context, the log, and the instrumented turn list. -/
def speakSeq (title mid : String) :
    String → List (Nat × Participant) → String × List DiscussionEntry × List Turn
  | ctx, [] => (ctx, [], [])
  | ctx, (r, p) :: rest =>
      let prompt := discussion_prompt title p ctx r
      match p.think prompt with
      | .ok response =>
          let step := speakSeq title mid
            (ctx ++ ("\n\n" ++ p.name ++ ": " ++ response)) rest
          (step.1, ⟨p.id, p.role, response, mid⟩ :: step.2.1,
            ⟨r, p, prompt, .ok response⟩ :: step.2.2)
      | .error e =>
          let step := speakSeq title mid
            (ctx ++ ("\n\n" ++ p.name ++ ": [Error: " ++ e ++ "]")) rest
          (step.1, step.2.1, ⟨r, p, prompt, .error e⟩ :: step.2.2)

/-- The visit order of `for round_num in range(2): for participant in
participants: if hasattr(participant, "think")`: both rounds over the
think-capable participants in list order. -/
def roundPairs (participants : List Participant) : List (Nat × Participant) :=
  ([0, 1] : List Nat).flatMap
    (fun r => (participants.filter (·.hasThink)).map (fun p => (r, p)))

/-- Embeds `SyncDecisionPhase._get_facilitator`: the first CEO-roled
participant, else the first participant, else none. -/
def get_facilitator (participants : List Participant) : Option Participant :=
  match participants.find? (fun p => p.role == "CEO") with
  | some p => some p
  | none => participants.head?

/-- Rendering of `f"{agenda}"` for a Python list of strings (single-quoted
repr of each item; quote-escaping inside items is abstracted away — no claim
depends on it). -/
def pyListRepr (l : List String) : String :=
  "[" ++ String.intercalate ", " (l.map (fun s => "'" ++ s ++ "'")) ++ "]"

/-- Embeds the prompt of `SyncDecisionPhase._synthesize`. -/
def synthesis_prompt (title : String) (agenda : List String)
    (discussion_context : String) : String :=
  ("As the meeting facilitator, synthesize the following discussion and produce clear outputs.\n\nMeeting: "
      ++ title ++ "\nAgenda: " ++ pyListRepr agenda ++ "\n\nDiscussion:\n")
    ++ discussion_context
    ++ ("\n\nProvide:\n1. SUMMARY: [Brief summary of key points discussed]\n"
      ++ "2. DECISIONS: [Clear decisions made - format as \"DECISION: [description]\"]\n"
      ++ "3. ACTION_ITEMS: [Specific tasks - format as \"ACTION: [description] | OWNER: [role] | DEADLINE: [when]\"]\n"
      ++ "4. OPEN_QUESTIONS: [Issues not resolved]\n"
      ++ "5. NEXT_STEPS: [What happens next]\n")

/-- Result of `SyncDecisionPhase.run` (plus instrumentation: the turn list
and the final accumulated context, which the Python code holds in local
state). -/
structure SyncResult where
  discussion_log : List DiscussionEntry
  decisions : List ExtractedDecision
  action_items : List ExtractedActionItem
  turns : List Turn
  finalContext : String

/-- The facilitator synthesis call as `SyncDecisionPhase.run` issues it:
`none` when there is no facilitator or it lacks `think` (no call is made),
else the outcome of the single un-guarded `await facilitator.think(...)` —
note this call sits OUTSIDE any try/except in the source. -/
def synthOutcome (title mid : String) (participants : List Participant)
    (agenda : List String) (prep_results : List (String × PrepResult)) :
    Option (Except String String) :=
  let ctx0 := build_discussion_context title prep_results
  let run := speakSeq title mid ctx0 (roundPairs participants)
  match get_facilitator participants with
  | some f =>
      if f.hasThink then some (f.think (synthesis_prompt title agenda run.1))
      else none
  | none => none

/-- Embeds `SyncDecisionPhase.run`.  A failure of the synthesis call
propagates (`Except.error`), because the source wraps every discussion turn
in try/except but not the synthesis call. -/
def syncDecisionRun (gen : Nat → String) (title mid : String)
    (participants : List Participant) (agenda : List String)
    (prep_results : List (String × PrepResult)) : Except String SyncResult :=
  let ctx0 := build_discussion_context title prep_results
  let run := speakSeq title mid ctx0 (roundPairs participants)
  match get_facilitator participants with
  | some f =>
      if f.hasThink then
        match f.think (synthesis_prompt title agenda run.1) with
        | .error e => .error e
        | .ok synthesis =>
            let ext := extract_decisions_and_actions gen synthesis
            .ok ⟨run.2.1, ext.1, ext.2, run.2.2, run.1⟩
      else .ok ⟨run.2.1, [], [], run.2.2, run.1⟩
  | none => .ok ⟨run.2.1, [], [], run.2.2, run.1⟩

/-- The value returned by `MeetingEngine.run_meeting` when it returns (rather
than raises): the not-found error dict, or the completed-meeting dict. -/
inductive RunResult where
  | notFound (error : String)
  | completedRun (meeting_id title : String)
      (prep_results : List (String × PrepResult)) (decision_results : SyncResult)

/-- Embeds `MeetingEngine.run_meeting`: look up the context, mark it
in-progress, run AsyncPrep (total), mark the sync phase, run SyncDecision;
if that raises, the exception propagates with the context left in-progress;
otherwise mark completed and return the result dict.  The meeting-log /
decision / action-item saves through the external artifact store are outside
the modelled core. -/
def run_meeting (gen : Nat → String) (heap : ListHeap) (st : EngineState)
    (mid : String) : EngineState × Except String RunResult :=
  match lookupList st.active_meetings mid with
  | none => (st, .ok (.notFound ("Meeting " ++ mid ++ " not found")))
  | some context =>
      let ctx1 := { context with status := .in_progress, current_phase := .async_prep }
      let st1 : EngineState := ⟨updList st.active_meetings mid ctx1⟩
      let agenda := heap ctx1.agendaRef
      let prep := asyncPrepRun ctx1.title ctx1.meeting_type ctx1.participants agenda
      let ctx2 := { ctx1 with current_phase := .sync_decision }
      let st2 : EngineState := ⟨updList st1.active_meetings mid ctx2⟩
      match syncDecisionRun gen ctx2.title mid ctx2.participants agenda prep with
      | .error e => (st2, .error e)
      | .ok dres =>
          let ctx3 := { ctx2 with status := .completed, current_phase := .completed }
          let st3 : EngineState := ⟨updList st2.active_meetings mid ctx3⟩
          (st3, .ok (.completedRun mid ctx2.title prep dres))

lemma find?_map_key {α : Type} (d : List (String × α)) (k : String) (v : α) :
    (d.map (fun kv => if kv.1 == k then (k, v) else kv)).find? (fun kv => kv.1 == k)
      = if d.any (fun kv => kv.1 == k) then some (k, v) else none := by
  induction d with
  | nil => rfl
  | cons kv rest ih =>
      simp only [List.map_cons, List.any_cons]
      by_cases hk : kv.1 == k
      · rw [if_pos hk]
        simp [List.find?, hk]
      · rw [if_neg hk]
        rw [List.find?_cons_of_neg _ (by simpa using hk), ih]
        have hk0 : (kv.1 == k) = false := by simpa using hk
        have hor : (kv.1 == k || rest.any fun kv => kv.1 == k)
            = (rest.any fun kv => kv.1 == k) := by
          rw [hk0]
          exact Bool.false_or _
        simp only [hor]

lemma find?_map_key_ne {α : Type} (d : List (String × α)) (k k' : String) (v : α)
    (hne : k' ≠ k) :
    (d.map (fun kv => if kv.1 == k then (k, v) else kv)).find? (fun kv => kv.1 == k')
      = d.find? (fun kv => kv.1 == k') := by
  induction d with
  | nil => rfl
  | cons kv rest ih =>
      simp only [List.map_cons]
      by_cases hk : kv.1 == k
      · have hkv : kv.1 = k := by simpa using hk
        have h1 : ((k, v).1 == k') = false := by
          simp [beq_eq_false_iff_ne, Ne.symm hne]
        have h2 : (kv.1 == k') = false := by
          simp [hkv, beq_eq_false_iff_ne, Ne.symm hne]
        rw [if_pos hk, List.find?_cons_of_neg _ (by simp [h1]),
          List.find?_cons_of_neg _ (by simp [h2]), ih]
      · rw [if_neg hk]
        by_cases hk' : kv.1 == k'
        · simp [List.find?_cons, hk']
        · rw [List.find?_cons_of_neg _ (by simpa using hk'),
            List.find?_cons_of_neg _ (by simpa using hk'), ih]

lemma lookup_updList_self {α : Type} (d : List (String × α)) (k : String) (v : α) :
    lookupList (updList d k v) k = some v := by
  rw [updList]
  by_cases h : d.any (fun kv => kv.1 == k)
  · rw [if_pos h, lookupList, find?_map_key, if_pos h]
    rfl
  · rw [if_neg h, lookupList, List.find?_append]
    have h1 : d.find? (fun kv => kv.1 == k) = none := by
      rw [List.find?_eq_none]
      intro x hx hpx
      exact absurd (List.any_eq_true.mpr ⟨x, hx, hpx⟩) h
    rw [h1]
    simp [List.find?]

lemma lookup_updList_ne {α : Type} (d : List (String × α)) (k k' : String) (v : α)
    (hne : k' ≠ k) :
    lookupList (updList d k v) k' = lookupList d k' := by
  rw [updList]
  by_cases h : d.any (fun kv => kv.1 == k)
  · rw [if_pos h, lookupList, lookupList, find?_map_key_ne _ _ _ _ hne]
  · rw [if_neg h, lookupList, lookupList, List.find?_append]
    have h1 : [(k, v)].find? (fun kv => kv.1 == k') = none := by
      have hkk : (k == k') = false := beq_eq_false_iff_ne.mpr (Ne.symm hne)
      simp [List.find?, hkk]
    rw [h1]
    cases d.find? (fun kv => kv.1 == k') <;> rfl

lemma prepStep_lookup_ne (title meeting_type : String) (agenda : List String)
    (acc : List (String × PrepResult)) (p : Participant) (k : String)
    (hne : k ≠ p.id) :
    lookupList (prepStep title meeting_type agenda acc p) k = lookupList acc k := by
  rw [prepStep]
  by_cases hth : p.hasThink
  · rw [if_pos hth]
    cases p.think (prep_prompt title meeting_type p agenda) <;>
      exact lookup_updList_ne _ _ _ _ hne
  · rw [if_neg hth]

lemma foldl_prep_preserve (title meeting_type : String) (agenda : List String)
    (k : String) :
    ∀ (qs : List Participant) (acc : List (String × PrepResult)),
    (∀ q ∈ qs, q.id ≠ k) →
    lookupList (qs.foldl (prepStep title meeting_type agenda) acc) k = lookupList acc k := by
  intro qs
  induction qs with
  | nil => intro acc _; rfl
  | cons q qs ih =>
      intro acc hq
      rw [List.foldl_cons,
        ih _ (fun q' hq' => hq q' (List.mem_cons_of_mem _ hq')),
        prepStep_lookup_ne _ _ _ _ _ _ (fun hk => hq q (List.mem_cons_self ..) hk.symm)]

/-- C7: in AsyncPrep, each think-capable participant's entry is determined
solely by its own inference call — a failed call records an error entry (and
no preparation), a successful call records a preparation entry — regardless
of how any other participant's call fares.  Participant ids are assumed
pairwise distinct, the source invariant for the id-keyed result dict. -/
theorem c7_prep_isolation (title meeting_type : String) (ps : List Participant)
    (agenda : List String) (p : Participant)
    (hmem : p ∈ ps) (hthink : p.hasThink = true)
    (hnodup : (ps.map (fun q => q.id)).Nodup) :
    lookupList (asyncPrepRun title meeting_type ps agenda) p.id =
      some (match p.think (prep_prompt title meeting_type p agenda) with
        | .ok response => PrepResult.prep p.id p.role p.name response
        | .error e => PrepResult.err p.id p.role p.name e) := by
  rw [asyncPrepRun]
  have main : ∀ (qs : List Participant) (acc : List (String × PrepResult)),
      (qs.map (fun q => q.id)).Nodup → p ∈ qs →
      lookupList (qs.foldl (prepStep title meeting_type agenda) acc) p.id =
        some (match p.think (prep_prompt title meeting_type p agenda) with
          | .ok response => PrepResult.prep p.id p.role p.name response
          | .error e => PrepResult.err p.id p.role p.name e) := by
    intro qs
    induction qs with
    | nil => intro acc _ hmem'; cases hmem'
    | cons q qs ih =>
        intro acc hnd hmem'
        rw [List.map_cons, List.nodup_cons] at hnd
        rcases List.mem_cons.mp hmem' with rfl | hp
        · rw [List.foldl_cons,
            foldl_prep_preserve _ _ _ _ _ _
              (fun q' hq' hk => hnd.1 (by rw [← hk]; exact List.mem_map_of_mem _ hq'))]
          rw [prepStep, if_pos hthink]
          cases p.think (prep_prompt title meeting_type p agenda) <;>
            exact lookup_updList_self _ _ _
        · rw [List.foldl_cons]
          exact ih _ hnd.2 hp
  exact main ps [] hnodup hmem

/-- Participants for the C7 witness: A and C succeed, B's call raises. -/
def cA : Participant := ⟨"a", "CEO", "Ann", true, fun _ => .ok "ideaA"⟩

/-- See `cA`. -/
def cB : Participant := ⟨"b", "CTO", "Bea", true, fun _ => .error "boom"⟩

/-- See `cA`. -/
def cC : Participant := ⟨"c", "CFO", "Cal", true, fun _ => .ok "ideaC"⟩

/-- Concrete instantiation of `c7_prep_isolation`: B's failure yields an
error entry for B while A and C still get successful preparation entries. -/
theorem c7_witness :
    lookupList (asyncPrepRun "T" "m" [cA, cB, cC] ["x"]) "b"
        = some (PrepResult.err "b" "CTO" "Bea" "boom")
      ∧ lookupList (asyncPrepRun "T" "m" [cA, cB, cC] ["x"]) "a"
        = some (PrepResult.prep "a" "CEO" "Ann" "ideaA")
      ∧ lookupList (asyncPrepRun "T" "m" [cA, cB, cC] ["x"]) "c"
        = some (PrepResult.prep "c" "CFO" "Cal" "ideaC") :=
  ⟨c7_prep_isolation "T" "m" [cA, cB, cC] ["x"] cB
      (List.mem_cons_of_mem _ (List.mem_cons_self ..)) rfl (by decide),
    c7_prep_isolation "T" "m" [cA, cB, cC] ["x"] cA (List.mem_cons_self ..) rfl (by decide),
    c7_prep_isolation "T" "m" [cA, cB, cC] ["x"] cC
      (List.mem_cons_of_mem _ (List.mem_cons_of_mem _ (List.mem_cons_self ..))) rfl (by decide)⟩

/-- C9 counterexample: `create_meeting` stores the caller's agenda list by
reference (`agenda=agenda`), so mutating the caller's list after creation
changes the agenda read through the stored context — the claimed value-copy
behaviour is false. -/
theorem c9_counterexample :
    heapSet (fun _ => ["original"]) 0 ["mutated"]
        ((create_meeting ⟨[]⟩ "m1" "T" "decision_meeting" 0 []).2.agendaRef)
      ≠ (fun _ => ["original"] : ListHeap)
        ((create_meeting ⟨[]⟩ "m1" "T" "decision_meeting" 0 []).2.agendaRef) := by
  decide

/-- C9, amended: the returned `MeetingContext` stores the caller's agenda
list reference itself, so a later mutation of the caller's list is visible
through the stored context: reading the stored agenda after the mutation
yields the mutated value. -/
theorem c9_agenda_stored_by_reference (st : EngineState)
    (mid title mtype : String) (agendaRef : Nat) (ps : List Participant) :
    ((create_meeting st mid title mtype agendaRef ps).2.agendaRef = agendaRef)
      ∧ ∀ (h : ListHeap) (v : List String),
          heapSet h agendaRef v
            ((create_meeting st mid title mtype agendaRef ps).2.agendaRef) = v := by
  refine ⟨rfl, ?_⟩
  intro h v
  simp [create_meeting, heapSet]

/-- Participant for the C3 counterexample: every inference call raises. -/
def c3fail : Participant := ⟨"p1", "Dev", "Pat", true, fun _ => .error "boom"⟩

/-- Engine state holding one scheduled meeting whose only participant is
`c3fail`. -/
def c3state : EngineState :=
  (create_meeting ⟨[]⟩ "m1" "Board" "decision_meeting" 0 [c3fail]).1

/-- C3 counterexample: with every inference call failing — including the
facilitator's synthesis call, which the source does NOT wrap in try/except —
`run_meeting` raises the synthesis exception instead of completing, and the
stored meeting is left `in_progress`, contradicting the claim that such a run
reaches `Completed` with zero decisions. -/
theorem c3_counterexample :
    (run_meeting (fun _ => "id0") (fun _ => ["item"]) c3state "m1").2
        = Except.error "boom"
      ∧ (lookupList (run_meeting (fun _ => "id0") (fun _ => ["item"]) c3state "m1").1.active_meetings
            "m1").map (fun c => c.status) = some MeetingStatus.in_progress :=
  ⟨rfl, rfl⟩

/-- C3, amended: a started run reaches `Completed` — returning the completed
result with the prep mapping, and leaving the stored context `completed` —
whenever the facilitator's synthesis call does not raise (in particular when
there is no facilitator with a think capability, or when the synthesis call
succeeds), no matter how every other inference call fails; a run with no
synthesis call, or whose synthesis text has no matching lines, legitimately
carries zero decisions and zero action items.  When the synthesis call itself
raises, the exception propagates (see `c3_counterexample`). -/
theorem c3_run_completes_unless_synthesis_raises
    (gen : Nat → String) (heap : ListHeap) (st : EngineState) (mid : String)
    (context : MeetingContext)
    (hfound : lookupList st.active_meetings mid = some context)
    (hsynth : ∀ e, synthOutcome context.title mid context.participants (heap context.agendaRef)
        (asyncPrepRun context.title context.meeting_type context.participants
          (heap context.agendaRef)) ≠ some (Except.error e)) :
    ∃ dres : SyncResult,
      (run_meeting gen heap st mid).2 =
          .ok (.completedRun mid context.title
            (asyncPrepRun context.title context.meeting_type context.participants
              (heap context.agendaRef)) dres)
        ∧ (lookupList (run_meeting gen heap st mid).1.active_meetings mid).map
            (fun c => c.status) = some MeetingStatus.completed
        ∧ (synthOutcome context.title mid context.participants (heap context.agendaRef)
              (asyncPrepRun context.title context.meeting_type context.participants
                (heap context.agendaRef)) = none →
            dres.decisions = [] ∧ dres.action_items = [])
        ∧ ∀ s, synthOutcome context.title mid context.participants (heap context.agendaRef)
              (asyncPrepRun context.title context.meeting_type context.participants
                (heap context.agendaRef)) = some (.ok s) →
            dres.decisions = (extract_decisions_and_actions gen s).1
              ∧ dres.action_items = (extract_decisions_and_actions gen s).2 := by
  rw [run_meeting, hfound]
  dsimp only
  rw [syncDecisionRun, synthOutcome] at *
  dsimp only at hsynth ⊢
  rcases hfac : get_facilitator context.participants with _ | f <;>
    rw [hfac] at hsynth <;> dsimp only at hsynth ⊢
  · refine ⟨_, rfl, ?_, ?_, ?_⟩
    · rw [lookup_updList_self]
      rfl
    · intro _
      exact ⟨rfl, rfl⟩
    · intro s hs
      cases hs
  · by_cases hth : f.hasThink
    · simp only [if_pos hth] at hsynth ⊢
      rcases hthink : f.think (synthesis_prompt context.title (heap context.agendaRef)
          (speakSeq context.title mid
            (build_discussion_context context.title
              (asyncPrepRun context.title context.meeting_type context.participants
                (heap context.agendaRef)))
            (roundPairs context.participants)).1) with e | s <;>
        rw [hthink] at hsynth <;> dsimp only at hsynth ⊢
      · exact absurd rfl (hsynth e)
      · refine ⟨_, rfl, ?_, ?_, ?_⟩
        · rw [lookup_updList_self]
          rfl
        · intro h
          cases h
        · intro s' hs'
          cases hs'
          exact ⟨rfl, rfl⟩
    · simp only [if_neg hth] at hsynth ⊢
      refine ⟨_, rfl, ?_, ?_, ?_⟩
      · rw [lookup_updList_self]
        rfl
      · intro _
        exact ⟨rfl, rfl⟩
      · intro s hs
        cases hs

/-- Participant for the C3 witness: discussion and preparation calls raise,
only the facilitator synthesis prompt succeeds, with a text containing no
DECISION/ACTION line. -/
def c3mixed : Participant :=
  ⟨"p1", "Dev", "Pat", true,
    fun prompt =>
      if pyStarts "As the meeting facilitator" prompt then .ok "1. SUMMARY: nothing decided"
      else .error "boom"⟩

/-- Engine state for the C3 witness. -/
def c3state2 : EngineState :=
  (create_meeting ⟨[]⟩ "m2" "Board" "decision_meeting" 0 [c3mixed]).1

/-- Concrete instantiation of `c3_run_completes_unless_synthesis_raises`:
prep and both discussion turns raise, the synthesis call succeeds with a text
with no matching lines, and the run completes. -/
theorem c3_witness :
    ∃ dres : SyncResult,
      (run_meeting (fun _ => "id0") (fun _ => ["item"]) c3state2 "m2").2 =
          .ok (.completedRun "m2" "Board"
            (asyncPrepRun "Board" "decision_meeting" [c3mixed] ["item"]) dres)
        ∧ (lookupList (run_meeting (fun _ => "id0") (fun _ => ["item"]) c3state2 "m2").1.active_meetings
            "m2").map (fun c => c.status) = some MeetingStatus.completed
        ∧ (synthOutcome "Board" "m2" [c3mixed] ["item"]
              (asyncPrepRun "Board" "decision_meeting" [c3mixed] ["item"]) = none →
            dres.decisions = [] ∧ dres.action_items = [])
        ∧ ∀ s, synthOutcome "Board" "m2" [c3mixed] ["item"]
              (asyncPrepRun "Board" "decision_meeting" [c3mixed] ["item"]) = some (.ok s) →
            dres.decisions = (extract_decisions_and_actions (fun _ => "id0") s).1
              ∧ dres.action_items = (extract_decisions_and_actions (fun _ => "id0") s).2 :=
  c3_run_completes_unless_synthesis_raises (fun _ => "id0") (fun _ => ["item"]) c3state2 "m2"
    ((create_meeting ⟨[]⟩ "m2" "Board" "decision_meeting" 0 [c3mixed]).2)
    rfl
    (fun _ h => Except.noConfusion (Option.some.inj h))

/-- The context fragment a turn contributes: `"{name}: {response}"` on
success, `"{name}: [Error: {message}]"` on failure. -/
def contribStr (t : Turn) : String :=
  match t.result with
  | .ok response => t.part.name ++ ": " ++ response
  | .error e => t.part.name ++ ": [Error: " ++ e ++ "]"

/-- Substring occurrence, at the character level. -/
def strSub (a b : String) : Prop := ∃ l r, b.data = l ++ a.data ++ r

lemma str_data_append (a b : String) : (a ++ b).data = a.data ++ b.data := rfl

lemma strSub_trans {a b c : String} (h1 : strSub a b) (h2 : strSub b c) : strSub a c := by
  obtain ⟨l1, r1, e1⟩ := h1
  obtain ⟨l2, r2, e2⟩ := h2
  exact ⟨l2 ++ l1, r1 ++ r2, by rw [e2, e1]; simp⟩

lemma strSub_middle (x a y : String) : strSub a (x ++ a ++ y) :=
  ⟨x.data, y.data, by simp [str_data_append]⟩

lemma strSub_grow (a g : String) : strSub a (a ++ g) :=
  ⟨[], g.data, by simp [str_data_append]⟩

lemma strSub_push {s t : String} (ctx : String) (h : t.data = "\n\n".data ++ s.data) :
    strSub s (ctx ++ t) :=
  ⟨ctx.data ++ "\n\n".data, [], by simp [str_data_append, h]⟩

lemma speakSeq_prompt_sub (title mid : String) :
    ∀ (pend : List (Nat × Participant)) (ctx : String),
    ∀ t ∈ (speakSeq title mid ctx pend).2.2, strSub ctx t.prompt := by
  intro pend
  induction pend with
  | nil => intro ctx t ht; cases ht
  | cons rp rest ih =>
      intro ctx t ht
      obtain ⟨r, p⟩ := rp
      rw [speakSeq] at ht
      rcases hthink : p.think (discussion_prompt title p ctx r) with e | response <;>
        rw [hthink] at ht <;> dsimp only at ht <;>
        rcases List.mem_cons.mp ht with rfl | ht
      · exact strSub_middle _ _ _
      · exact strSub_trans (strSub_grow ctx _) (ih _ t ht)
      · exact strSub_middle _ _ _
      · exact strSub_trans (strSub_grow ctx _) (ih _ t ht)

lemma speakSeq_pairwise (title mid : String) :
    ∀ (pend : List (Nat × Participant)) (ctx : String),
    ((speakSeq title mid ctx pend).2.2).Pairwise
      (fun t u => strSub (contribStr t) u.prompt) := by
  intro pend
  induction pend with
  | nil => intro ctx; exact List.Pairwise.nil
  | cons rp rest ih =>
      intro ctx
      obtain ⟨r, p⟩ := rp
      rw [speakSeq]
      rcases hthink : p.think (discussion_prompt title p ctx r) with e | response <;>
        dsimp only <;> refine List.pairwise_cons.mpr ⟨?_, ih _⟩ <;> intro u hu
      · refine strSub_trans (strSub_push ctx (by simp [contribStr, str_data_append]))
          (speakSeq_prompt_sub title mid _ _ u hu)
      · refine strSub_trans (strSub_push ctx (by simp [contribStr, str_data_append]))
          (speakSeq_prompt_sub title mid _ _ u hu)

lemma speakSeq_map (title mid : String) :
    ∀ (pend : List (Nat × Participant)) (ctx : String),
    ((speakSeq title mid ctx pend).2.2).map (fun t => (t.round, t.part.id))
      = pend.map (fun rp => (rp.1, rp.2.id)) := by
  intro pend
  induction pend with
  | nil => intro ctx; rfl
  | cons rp rest ih =>
      intro ctx
      obtain ⟨r, p⟩ := rp
      rw [speakSeq]
      rcases p.think (discussion_prompt title p ctx r) with e | response <;>
        dsimp only <;> rw [List.map_cons, ih] <;> rfl

lemma speakSeq_log (title mid : String) :
    ∀ (pend : List (Nat × Participant)) (ctx : String),
    (speakSeq title mid ctx pend).2.1
      = ((speakSeq title mid ctx pend).2.2).filterMap (fun t =>
          match t.result with
          | .ok response => some ⟨t.part.id, t.part.role, response, mid⟩
          | .error _ => none) := by
  intro pend
  induction pend with
  | nil => intro ctx; rfl
  | cons rp rest ih =>
      intro ctx
      obtain ⟨r, p⟩ := rp
      rw [speakSeq]
      rcases p.think (discussion_prompt title p ctx r) with e | response <;>
        dsimp only <;> rw [List.filterMap_cons] <;> dsimp only <;> rw [ih]

lemma speakSeq_result (title mid : String) :
    ∀ (pend : List (Nat × Participant)) (ctx : String),
    ∀ t ∈ (speakSeq title mid ctx pend).2.2, t.result = t.part.think t.prompt := by
  intro pend
  induction pend with
  | nil => intro ctx t ht; cases ht
  | cons rp rest ih =>
      intro ctx t ht
      obtain ⟨r, p⟩ := rp
      rw [speakSeq] at ht
      rcases hthink : p.think (discussion_prompt title p ctx r) with e | response <;>
        rw [hthink] at ht <;> dsimp only at ht <;>
        rcases List.mem_cons.mp ht with rfl | ht
      · exact hthink.symm
      · exact ih _ t ht
      · exact hthink.symm
      · exact ih _ t ht

lemma speakSeq_final (title mid : String) :
    ∀ (pend : List (Nat × Participant)) (ctx : String),
    (speakSeq title mid ctx pend).1.data
      = ctx.data ++ (((speakSeq title mid ctx pend).2.2).map
          (fun t => "\n\n".data ++ (contribStr t).data)).flatten := by
  intro pend
  induction pend with
  | nil => intro ctx; simp [speakSeq]
  | cons rp rest ih =>
      intro ctx
      obtain ⟨r, p⟩ := rp
      rw [speakSeq]
      rcases p.think (discussion_prompt title p ctx r) with e | response <;>
        dsimp only <;> rw [List.map_cons, List.flatten_cons, ih] <;>
        simp [contribStr, str_data_append]

/-- C8: in the SyncDecision round-robin — run over `roundPairs`, the
linearisation of `for round_num in range(2): for participant in participants:
if hasattr(participant, "think")` — (1) the turn sequence is exactly two
rounds over the think-capable participants in list order; (2) every earlier
turn's contribution (`"{name}: {response}"` on success, the
`"{name}: [Error: {message}]"` placeholder on failure) occurs verbatim in
every later turn's prompt; (3) the discussion log holds one `DiscussionEntry`
per successful turn, in order, and none for failed turns; (4) each turn's
outcome is that participant's own call on the prompt it was shown; (5) the
final context is the initial context extended by exactly the
`"\n\n" + contribution` of every turn in order. -/
theorem c8_two_rounds_context_accumulation (title mid ctx0 : String)
    (participants : List Participant) :
    (((speakSeq title mid ctx0 (roundPairs participants)).2.2).map
        (fun t => (t.round, t.part.id))
      = (participants.filter (·.hasThink)).map (fun p => (0, p.id))
        ++ (participants.filter (·.hasThink)).map (fun p => (1, p.id)))
    ∧ ((speakSeq title mid ctx0 (roundPairs participants)).2.2).Pairwise
        (fun t u => strSub (contribStr t) u.prompt)
    ∧ (speakSeq title mid ctx0 (roundPairs participants)).2.1
        = ((speakSeq title mid ctx0 (roundPairs participants)).2.2).filterMap (fun t =>
            match t.result with
            | .ok response => some ⟨t.part.id, t.part.role, response, mid⟩
            | .error _ => none)
    ∧ (∀ t ∈ (speakSeq title mid ctx0 (roundPairs participants)).2.2,
        t.result = t.part.think t.prompt)
    ∧ (speakSeq title mid ctx0 (roundPairs participants)).1.data
        = ctx0.data ++ (((speakSeq title mid ctx0 (roundPairs participants)).2.2).map
            (fun t => "\n\n".data ++ (contribStr t).data)).flatten := by
  refine ⟨?_, speakSeq_pairwise title mid _ ctx0, speakSeq_log title mid _ ctx0,
    speakSeq_result title mid _ ctx0, speakSeq_final title mid _ ctx0⟩
  rw [speakSeq_map]
  simp only [roundPairs, List.flatMap_cons, List.flatMap_nil, List.map_append,
    List.map_map, List.append_nil]
  rfl

/-- The first turn of the C8 witness run: participant `cA` speaks in round 1
on the initial context. -/
def c8turn0 : Turn := ⟨0, cA, discussion_prompt "T" cA "CTX" 0, .ok "ideaA"⟩

/-- Concrete instantiation of `c8_two_rounds_context_accumulation` with two
think-capable participants: the visit order is both participants in round 1
then both in round 2, and the first turn's recorded outcome is its own call's
result. -/
theorem c8_witness :
    (((speakSeq "T" "m" "CTX" (roundPairs [cA, cB])).2.2).map
        (fun t => (t.round, t.part.id))
      = [(0, "a"), (0, "b"), (1, "a"), (1, "b")])
      ∧ c8turn0.result = c8turn0.part.think c8turn0.prompt := by
  constructor
  · rw [(c8_two_rounds_context_accumulation "T" "m" "CTX" [cA, cB]).1]
    decide
  · exact (c8_two_rounds_context_accumulation "T" "m" "CTX" [cA, cB]).2.2.2.1 c8turn0
      (List.mem_cons_self ..)
